import Mathlib

/-!
# Verification of the `httpclient` request/response pipeline

A shallow embedding of the Go package `postfinance/httpclient`
(file `httpclient.go`): the content-codec dispatch (`marshal` /
`unmarshal`), the request builder (`Client.NewRequest`), the dispatcher
(`Client.Do`), the default callbacks, and the body-splitting helper
(`drainBody`).

External collaborators (the JSON/YAML encoders, the URL parser/resolver,
the transport, the rate limiter) are modelled as parameters or as
per-call outcome values: the embedding quantifies over their behaviour
where the source delegates to them.
-/

set_option autoImplicit false

/-- Errors as produced by the Go code: `errors.New s` is `Err.msg s`,
and `errors.Wrap inner s` is `Err.wrap inner s`. -/
inductive Err where
  | msg (s : String)
  | wrap (inner : Err) (s : String)
  deriving DecidableEq, Repr

/-- The rendered error text: `github.com/pkg/errors` renders a wrapped
error as `"outer: cause"`. -/
def Err.text : Err → String
  | .msg s => s
  | .wrap inner s => s ++ ": " ++ inner.text

/-- `errors.Cause`: strip all wrapping layers. -/
def Err.cause : Err → Err
  | .msg s => .msg s
  | .wrap inner _ => inner.cause

/-- Model of `var ErrUnknownContentType = errors.New("unknown media type")`. -/
def ErrUnknownContentType : Err := .msg "unknown media type"

/-- Model of `var ErrTooManyRequest = errors.New("too many requests")`. -/
def ErrTooManyRequest : Err := .msg "too many requests"

/-- The error the Go HTTP machinery reports for a read on a closed
response body. -/
def errReadClosed : Err := .msg "http: read on closed response body"

/-- Content-type constants of the package. -/
def ContentTypeText : String := "text/plain"

def ContentTypeJSON : String := "application/json"

def ContentTypeYAML : String := "application/yaml"

/-- Model of an `io.ReadCloser` as the pipeline sees it.

* `noBody` is the `http.NoBody` sentinel (a unique singleton; reads
  yield immediate `EOF`, `Close` is a no-op).
* `stream rem rerr cerr nop closed` is any other stream: a full read
  yields the bytes `rem` and then either `EOF` (when `rerr = none`) or
  the read error `rerr`; `cerr` is the error `Close` would report;
  `nop = true` marks an `ioutil.NopCloser` wrapper, whose `Close` does
  nothing and always succeeds; `closed = true` means the stream has
  been closed, so subsequent reads fail. -/
inductive RC where
  | noBody
  | stream (rem : List Nat) (rerr : Option Err) (cerr : Option Err)
      (nop : Bool) (closed : Bool)
  deriving DecidableEq, Repr

/-- An `ioutil.NopCloser` over an in-memory buffer holding `content`. -/
def mkNopBuf (content : List Nat) : RC :=
  .stream content none none true false

/-- Reading a stream to exhaustion (`bytes.Buffer.ReadFrom`, `io.Copy`,
a decoder's read loop): returns the bytes read (or the read error) and
the post-read stream state. A read error is reported after the pending
bytes have been consumed, and persists on later reads. -/
def RC.readAllState : RC → Except Err (List Nat) × RC
  | .noBody => (.ok [], .noBody)
  | .stream rem rerr cerr nop closed =>
    if closed then (.error errReadClosed, .stream rem rerr cerr nop closed)
    else
      match rerr with
      | some e => (.error e, .stream [] (some e) cerr nop closed)
      | none => (.ok rem, .stream [] none cerr nop closed)

/-- The byte sequence a full read of the stream yields (error when the
read cannot complete). -/
def RC.readAll (b : RC) : Except Err (List Nat) :=
  b.readAllState.1

/-- Closing a stream (`Close`): a no-op success on the sentinel and on
`NopCloser` wrappers; on a real stream it reports `cerr` (leaving the
stream open) or marks the stream closed. -/
def RC.closeOp : RC → RC × Option Err
  | .noBody => (.noBody, none)
  | .stream rem rerr cerr nop closed =>
    if nop then (.stream rem rerr cerr nop closed, none)
    else
      match cerr with
      | some e => (.stream rem rerr cerr nop closed, some e)
      | none => (.stream rem rerr cerr nop true, none)

/-- Result of `drainBody`: the two returned readers (`r1` is `nil` on
the error paths), the returned error, and whether the original stream's
`Close` was called and succeeded. -/
structure DrainResult where
  r1 : Option RC
  r2 : RC
  err : Option Err
  origClosed : Bool
  deriving DecidableEq, Repr

/-- The function `drainBody` (httpclient.go): preserves the `http.NoBody` sentinel by
identity; otherwise slurps the stream into memory, closes the original,
and returns two `NopCloser`s over the captured bytes. On a read error
or a close error it returns `nil`, the original stream, and the error. -/
def drainBody (b : RC) : DrainResult :=
  match b with
  | .noBody => ⟨some .noBody, .noBody, none, false⟩
  | .stream rem rerr cerr nop closed =>
    match (RC.stream rem rerr cerr nop closed).readAllState with
    | (.error e, b1) => ⟨none, b1, some e, false⟩
    | (.ok content, b1) =>
      match b1.closeOp with
      | (b2, some e) => ⟨none, b2, some e, false⟩
      | (_, none) => ⟨some (mkNopBuf content), mkNopBuf content, none, true⟩

/-- Model of a Go `interface{}` payload handed to `marshal`.
`fmt.Fprint` renders every one of these; `stringer` marks a value that
implements `fmt.Stringer`, `obj` any other non-string value (a struct,
a map, ...) with its default `%v` rendering. -/
inductive GoVal where
  | nil
  | str (s : String)
  | int (n : Int)
  | obj (rendering : String)
  | stringer (s : String)
  deriving DecidableEq, Repr

/-- Model of `fmt.Fprint` to a `bytes.Buffer`: total, renders any value (a
`bytes.Buffer` write never fails). -/
def fmtRender : GoVal → String
  | .nil => "<nil>"
  | .str s => s
  | .int n => toString n
  | .obj rendering => rendering
  | .stringer s => s

/-- Model of a Go `interface{}` target handed to `unmarshal`: the code
distinguishes a `nil` target, an `io.Writer` target, a `*string`
target, and everything else. -/
inductive Target where
  | nilT
  | writer
  | stringPtr
  | other (desc : String)
  deriving DecidableEq, Repr

/-- The default marshaler `marshal` (httpclient.go): result is
`(bytes written, resolved content type, error)`. The JSON and YAML
encoders are external libraries, passed as parameters. A `nil` payload
is a no-op returning the requested media type; the text branch is
`fmt.Fprint`, which succeeds for every payload; an unknown media type
yields `errors.Wrap(ErrUnknownContentType, mediaType)`. -/
def marshal (jsonEnc yamlEnc : GoVal → Except Err String)
    (v : GoVal) (mediaType : String) : String × String × Option Err :=
  match v with
  | .nil => ("", mediaType, none)
  | _ =>
    if mediaType = ContentTypeJSON then
      match jsonEnc v with
      | .ok s => (s, ContentTypeJSON, none)
      | .error e => ("", ContentTypeJSON, some e)
    else if mediaType = ContentTypeYAML then
      match yamlEnc v with
      | .ok s => (s, ContentTypeYAML, none)
      | .error e => ("", ContentTypeYAML, some e)
    else if mediaType = ContentTypeText then
      (fmtRender v, ContentTypeText, none)
    else
      ("", mediaType, some (.wrap ErrUnknownContentType mediaType))

/-- The default unmarshaler `unmarshal` (httpclient.go): returns the
post-read stream state and the error. A `nil` target is a no-op
success without reading; an `io.Writer` target receives the raw bytes;
the text branch requires a `*string` target and otherwise returns
`errors.New("target type is not string")` without reading; an unknown
media type yields `errors.Wrap(ErrUnknownContentType, mediaType)`.
The JSON and YAML decoders are external libraries, passed as
parameters acting on the bytes read. -/
def unmarshal (jsonDec yamlDec : List Nat → Target → Option Err)
    (r : RC) (v : Target) (mediaType : String) : RC × Option Err :=
  match v with
  | .nilT => (r, none)
  | .writer =>
    match r.readAllState with
    | (.error e, r1) => (r1, some e)
    | (.ok _, r1) => (r1, none)
  | _ =>
    if mediaType = ContentTypeJSON then
      match r.readAllState with
      | (.error e, r1) => (r1, some e)
      | (.ok bs, r1) => (r1, jsonDec bs v)
    else if mediaType = ContentTypeYAML then
      match r.readAllState with
      | (.error e, r1) => (r1, some e)
      | (.ok bs, r1) => (r1, yamlDec bs v)
    else if mediaType = ContentTypeText then
      match v with
      | .stringPtr =>
        match r.readAllState with
        | (.error e, r1) => (r1, some (.wrap e "read into buffer"))
        | (.ok _, r1) => (r1, none)
      | _ => (r, some (.msg "target type is not string"))
    else
      (r, some (.wrap ErrUnknownContentType mediaType))

/-- Model of a built `*http.Request`: method, resolved URL, header list
(`Header.Add` appends), basic-auth credentials (`SetBasicAuth`), and
the marshaled body bytes. -/
structure Req where
  method : String
  url : String
  header : List (String × String)
  basicAuth : Option (String × String)
  body : String
  deriving DecidableEq, Repr

/-- Model of an `*http.Response`: status code, status line, and body.
The body is an `Option` because the dispatcher can end up storing a
`nil` reader into it (see the keep-body drain-failure path). -/
structure Resp where
  statusCode : Int
  status : String
  body : Option RC
  deriving DecidableEq, Repr

/-- Model of the `Client` struct. Function-valued collaborators are
`Option`s: `none` is a `nil` Go function value. The rate limiter is
modelled by the outcome of `limiter.Wait(ctx)` for this call:
`none` = no limiter configured, `some none` = token acquired,
`some (some e)` = `Wait` returned the error `e` (denial, internal
failure, or context cancellation). -/
structure Client where
  limiterWait : Option (Option Err)
  keepResponseBody : Bool
  BaseURL : String
  ContentType : String
  username : String
  password : String
  header : Option (List (String × String))
  Marshaler : Option (GoVal → String → String × String × Option Err)
  Unmarshaler : Option (RC → Target → String → RC × Option Err)
  RequestCallback : Option (Req → Option Req)
  ResponseCallback : Option (Resp → Resp × Option Err)

/-- The default request callback `requestCallback`: returns the
request unmodified. -/
def requestCallback (r : Req) : Option Req :=
  some r

/-- The default response callback `responseCallback`: status codes in
200..299 pass through unchanged; anything else maps to
`errors.New(r.Status)`, returned alongside the response. -/
def responseCallback (r : Resp) : Resp × Option Err :=
  if 200 ≤ r.statusCode ∧ r.statusCode ≤ 299 then (r, none)
  else (r, some (.msg r.status))

/-- Outcome of `NewRequest`: either a panic, or the returned
`(*http.Request, error)` pair (the request may be `nil`). -/
inductive NROutcome where
  | panicked (msg : String)
  | returned (req : Option Req) (err : Option Err)
  deriving Repr

/-- The request as fully assembled by `NewRequest` just before it is
handed to the request callback: built by `http.NewRequest`, header
replaced by the custom header set when one is configured, basic auth
injected when both credentials are non-empty, and `Content-Type` /
`Accept` appended with the content type `marshal` resolved. -/
def assembleRequest (c : Client) (method u bodyBytes contentType : String) : Req :=
  let req0 : Req := ⟨method, u, [], none, bodyBytes⟩
  let req1 :=
    match c.header with
    | some h => { req0 with header := h }
    | none => req0
  let req2 :=
    if 0 < c.username.length ∧ 0 < c.password.length then
      { req1 with basicAuth := some (c.username, c.password) }
    else req1
  { req2 with
    header := req2.header ++ [("Content-Type", contentType), ("Accept", contentType)] }

/-- The request builder `Client.NewRequest` (httpclient.go). External stdlib calls appear
as parameters: `resolve` is `url.URL.ResolveReference`, `parseRel` the
outcome of `url.Parse urlStr`, and `newReqErr` the error side of
`http.NewRequest` (`none` when it succeeds). The `Marshaler` and
`RequestCallback` nil-checks panic, in source order. -/
def Client.NewRequest (c : Client) (resolve : String → String → String)
    (parseRel : Except Err String) (newReqErr : Option Err)
    (method : String) (body : GoVal) : NROutcome :=
  match parseRel with
  | .error e => .returned none (some e)
  | .ok rel =>
    let u := resolve c.BaseURL rel
    match c.Marshaler with
    | none => .panicked "Marshaler is nil"
    | some m =>
      match m body c.ContentType with
      | (_, _, some e) => .returned none (some e)
      | (bodyBytes, contentType, none) =>
        match newReqErr with
        | some e => .returned none (some e)
        | none =>
          match c.RequestCallback with
          | none => .panicked "RequestCallback is nil"
          | some cb => .returned (cb (assembleRequest c method u bodyBytes contentType)) none

/-- Outcome of the transport call `c.client.Do(req.WithContext(ctx))`:
either an error (with whatever response object, possibly `nil`, the
transport produced), or a successful response. -/
inductive TranspOutcome where
  | fail (part : Option Resp) (e : Err)
  | ok (r : Resp)

/-- Outcome of `Client.Do`: either a panic, or the returned
`(*http.Response, error)` pair. -/
inductive DoOutcome where
  | panicked (msg : String)
  | returned (resp : Option Resp) (err : Option Err)
  deriving Repr

/-- Result of `Client.Do` together with the externally observable fact
whether the transport call was made at all. -/
structure DoResult where
  outcome : DoOutcome
  transportCalled : Bool

/-- The deferred release action of `Do`, applied to the response
variable as it stands when `Do` exits. Without the keep-body option it
is `resp.Body.Close()` (whose error, and the dead `err = rerr`
assignment guarded by `rerr == nil`, never reach the caller since the
return values are not named); with the option it is `resp.Body = save`,
re-attaching the saved clone. -/
def finalizeResp (keep : Bool) (save : Option RC) (r : Resp) : Resp :=
  if keep then { r with body := save }
  else { r with body := r.body.map (fun b => b.closeOp.1) }

/-- The dispatcher `Client.Do` (httpclient.go). `tr` is the outcome of the transport
call; `v` the decode target. In source order: the rate-limiter gate
(any `Wait` error becomes `ErrTooManyRequest` with a `nil` response,
before the transport is touched), the transport call, the deferred
release action (close by default; with the keep-body option, the body
is split by `drainBody` — its error discarded — and the release action
re-attaches the saved first clone), the `ResponseCallback` nil-check
(panic), the response callback, the `Unmarshaler` nil-check (panic),
and the decode step reading the live body. A successful transport
response always carries a non-nil body; a `nil` one would be a nil
dereference (panic) where it is first used. -/
def Client.Do (c : Client) (tr : TranspOutcome) (v : Target) : DoResult :=
  match c.limiterWait with
  | some (some _) => ⟨.returned none (some ErrTooManyRequest), false⟩
  | _ =>
    match tr with
    | .fail part e => ⟨.returned part (some e), true⟩
    | .ok resp0 =>
      match resp0.body with
      | none => ⟨.panicked "nil response body", true⟩
      | some b0 =>
        let keepStep : Resp × Option RC :=
          if c.keepResponseBody then
            let d := drainBody b0
            ({ resp0 with body := some d.r2 }, d.r1)
          else (resp0, none)
        match c.ResponseCallback with
        | none => ⟨.panicked "ResponseCallback is nil", true⟩
        | some cb =>
          match cb keepStep.1 with
          | (resp2, some e) =>
            ⟨.returned (some (finalizeResp c.keepResponseBody keepStep.2 resp2)) (some e), true⟩
          | (resp2, none) =>
            match c.Unmarshaler with
            | none => ⟨.panicked "Unmarshaler is nil", true⟩
            | some um =>
              match resp2.body with
              | none => ⟨.panicked "nil response body", true⟩
              | some b1 =>
                match um b1 v c.ContentType with
                | (b2, decErr) =>
                  ⟨.returned
                    (some (finalizeResp c.keepResponseBody keepStep.2 { resp2 with body := some b2 }))
                    decErr, true⟩

/-! ## Concrete fixtures

Trivial stand-ins for the external JSON/YAML codec libraries and the
URL resolver, plus a fully configured client mirroring the defaults
installed by `New`; used to instantiate witnesses and counterexamples
at concrete inputs. -/

/-- A JSON encoder stand-in. -/
def jsonEncFix : GoVal → Except Err String := fun _ => .ok ""

/-- A YAML encoder stand-in. -/
def yamlEncFix : GoVal → Except Err String := fun _ => .ok ""

/-- A JSON decoder stand-in. -/
def jsonDecFix : List Nat → Target → Option Err := fun _ _ => none

/-- A YAML decoder stand-in. -/
def yamlDecFix : List Nat → Target → Option Err := fun _ _ => none

/-- A concrete relative-reference resolver standing in for
`url.URL.ResolveReference`. -/
def resolveFix : String → String → String := fun a b => a ++ "/" ++ b

/-- A concrete, fully configured client, mirroring the defaults
installed by `New`. -/
def cFix : Client :=
  { limiterWait := none
    keepResponseBody := false
    BaseURL := "https://hostname.domain"
    ContentType := ContentTypeText
    username := ""
    password := ""
    header := none
    Marshaler := some (marshal jsonEncFix yamlEncFix)
    Unmarshaler := some (unmarshal jsonDecFix yamlDecFix)
    RequestCallback := some requestCallback
    ResponseCallback := some responseCallback }

/-- A client whose request callback returns a `nil` request; everything
else is configured as `New` would. -/
def cNilReturningCb : Client :=
  { cFix with RequestCallback := some (fun _ => none) }

/-! ## The claims -/

/-- C1 counterexample: with a request callback that returns a `nil`
request, `NewRequest` does not fail fatally — it returns that absent
request to the caller together with a `nil` error. -/
theorem C1_counterexample_nil_callback_result :
    Client.NewRequest cNilReturningCb resolveFix (.ok "node") none "GET" (.str "x") =
      .returned none none := by
  rfl

/-- C1 (amended): `NewRequest` passes the fully assembled request
through the configured request-interception callback and returns the
callback's result as-is with a `nil` error; the fatal abort happens
only when the callback itself is absent, and a `nil` request returned
by the callback is not detected. -/
theorem C1_callback_result_returned_unchecked :
    ∀ (c : Client) (resolve : String → String → String) (rel method : String)
      (body : GoVal) (cb : Req → Option Req)
      (m : GoVal → String → String × String × Option Err) (bs ct : String),
      c.Marshaler = some m →
      m body c.ContentType = (bs, ct, none) →
      c.RequestCallback = some cb →
      Client.NewRequest c resolve (.ok rel) none method body =
        .returned (cb (assembleRequest c method (resolve c.BaseURL rel) bs ct)) none := by
  intro c resolve rel method body cb m bs ct hm hmar hcb
  simp [Client.NewRequest, hm, hmar, hcb]

/-- C1 witness: the amended theorem applied to a concrete client whose
callback discards the request and returns `nil`. -/
theorem C1_callback_result_returned_unchecked_witness :
    Client.NewRequest cNilReturningCb resolveFix (.ok "node") none "GET" (.str "x") =
      .returned ((fun _ => none) (assembleRequest cNilReturningCb "GET"
        (resolveFix cNilReturningCb.BaseURL "node") "x" ContentTypeText)) none :=
  C1_callback_result_returned_unchecked cNilReturningCb resolveFix "node" "GET"
    (.str "x") (fun _ => none) (marshal jsonEncFix yamlEncFix) "x" ContentTypeText
    rfl rfl rfl

/-- Helper for C2: the default unmarshaler only reads from the stream —
the resulting stream state keeps the original close-error,
`NopCloser`-ness and closed-ness; only the pending bytes and pending
read error change. -/
theorem unmarshal_stream_shape (jsonDec yamlDec : List Nat → Target → Option Err)
    (rem : List Nat) (rerr cerr : Option Err) (nop closed : Bool)
    (v : Target) (mt : String) :
    ∃ (rem2 : List Nat) (rerr2 : Option Err) (e2 : Option Err),
      unmarshal jsonDec yamlDec (.stream rem rerr cerr nop closed) v mt =
        (.stream rem2 rerr2 cerr nop closed, e2) := by
  cases v <;>
    cases closed <;>
    cases rerr <;>
    simp only [unmarshal, RC.readAllState, if_true, if_false, Bool.false_eq_true,
      ite_true, ite_false] <;>
    (try split_ifs) <;>
    simp

/-- C2: with the keep-body option, `Do` clones the response body before
decoding consumes the live copy, and the caller's response carries the
saved clone, fully readable with the original content, after `Do`
returns (whatever the decode step did); without the option, the
response body is closed by the time `Do` returns — subsequent reads
fail — on the success path, the decode-failure path and the
response-callback-error path alike. -/
theorem C2_keep_body_vs_close :
    (∀ (c : Client) (um : RC → Target → String → RC × Option Err)
      (sc : Int) (st : String) (rem : List Nat) (nop : Bool) (v : Target),
      ∃ (r : Resp) (e : Option Err),
        (Client.Do
          { c with limiterWait := none, keepResponseBody := true,
                   ResponseCallback := some responseCallback, Unmarshaler := some um }
          (.ok ⟨sc, st, some (.stream rem none none nop false)⟩) v).outcome =
          .returned (some r) e ∧
        r.body = some (mkNopBuf rem) ∧ (mkNopBuf rem).readAll = .ok rem) ∧
    ∀ (c : Client) (jsonDec yamlDec : List Nat → Target → Option Err)
      (sc : Int) (st : String) (rem : List Nat) (rerr : Option Err) (v : Target),
      ∃ (r : Resp) (e : Option Err) (rem2 : List Nat) (rerr2 : Option Err),
        (Client.Do
          { c with limiterWait := none, keepResponseBody := false,
                   ResponseCallback := some responseCallback,
                   Unmarshaler := some (unmarshal jsonDec yamlDec) }
          (.ok ⟨sc, st, some (.stream rem rerr none false false)⟩) v).outcome =
          .returned (some r) e ∧
        r.body = some (.stream rem2 rerr2 none false true) ∧
        (RC.stream rem2 rerr2 none false true).readAll = .error errReadClosed := by
  constructor
  · intro c um sc st rem nop v
    have hd : drainBody (.stream rem none none nop false) =
        ⟨some (mkNopBuf rem), mkNopBuf rem, none, true⟩ := by
      cases nop <;> simp [drainBody, RC.readAllState, RC.closeOp, mkNopBuf]
    by_cases h2 : (200 : Int) ≤ sc ∧ sc ≤ 299
    · rcases hu : um (mkNopBuf rem) v c.ContentType with ⟨b2, e2⟩
      simp [Client.Do, hd, responseCallback, h2, hu, finalizeResp, mkNopBuf,
        RC.readAll, RC.readAllState]
    · simp [Client.Do, hd, responseCallback, h2, finalizeResp, mkNopBuf,
        RC.readAll, RC.readAllState]
  · intro c jsonDec yamlDec sc st rem rerr v
    by_cases h2 : (200 : Int) ≤ sc ∧ sc ≤ 299
    · obtain ⟨rem2, rerr2, e2, hu⟩ :=
        unmarshal_stream_shape jsonDec yamlDec rem rerr none false false v c.ContentType
      simp [Client.Do, responseCallback, h2, hu, finalizeResp, RC.closeOp,
        RC.readAll, RC.readAllState]
    · simp [Client.Do, responseCallback, h2, finalizeResp, RC.closeOp,
        RC.readAll, RC.readAllState]

/-- C3: when the rate limiter's `Wait` fails (denial, internal failure
or cancellation), `Do` returns `ErrTooManyRequest` with a `nil`
response, and the transport call is never made. -/
theorem C3_limiter_denial_blocks_transport :
    ∀ (c : Client) (e : Err) (tr : TranspOutcome) (v : Target),
      Client.Do { c with limiterWait := some (some e) } tr v =
        ⟨.returned none (some ErrTooManyRequest), false⟩ :=
  fun _ _ _ _ => rfl

/-- C4: each missing collaborator is detected at its point of use and
aborts fatally (a panic), never a returned error: `NewRequest` panics
on a nil `Marshaler` (once the URL has parsed) and on a nil
`RequestCallback` (once marshal and request construction succeeded);
`Do` panics on a nil `ResponseCallback` (once the transport returned)
and on a nil `Unmarshaler` (once the response callback passed). -/
theorem C4_nil_collaborators_panic :
    (∀ (c : Client) (resolve : String → String → String) (rel : String)
      (nrE : Option Err) (method : String) (body : GoVal),
      Client.NewRequest { c with Marshaler := none } resolve (.ok rel) nrE method body =
        .panicked "Marshaler is nil") ∧
    (∀ (c : Client) (resolve : String → String → String) (rel method : String)
      (body : GoVal) (m : GoVal → String → String × String × Option Err) (bs ct : String),
      m body c.ContentType = (bs, ct, none) →
      Client.NewRequest { c with Marshaler := some m, RequestCallback := none }
        resolve (.ok rel) none method body = .panicked "RequestCallback is nil") ∧
    (∀ (c : Client) (sc : Int) (st : String) (b : RC) (v : Target),
      Client.Do { c with limiterWait := none, ResponseCallback := none }
        (.ok ⟨sc, st, some b⟩) v = ⟨.panicked "ResponseCallback is nil", true⟩) ∧
    ∀ (c : Client) (sc : Int) (st : String) (b : RC) (v : Target)
      (f : Resp → Resp × Option Err) (resp2 : Resp),
      f ⟨sc, st, some b⟩ = (resp2, none) →
      Client.Do
        { c with limiterWait := none, keepResponseBody := false,
                 ResponseCallback := some f, Unmarshaler := none }
        (.ok ⟨sc, st, some b⟩) v = ⟨.panicked "Unmarshaler is nil", true⟩ := by
  refine ⟨fun c resolve rel nrE method body => rfl, ?_, fun c sc st b v => rfl, ?_⟩
  · intro c resolve rel method body m bs ct hmar
    simp [Client.NewRequest, hmar]
  · intro c sc st b v f resp2 hf
    simp [Client.Do, hf]

/-- C4 witness: the hypothesis-bearing conjuncts applied at concrete
inputs (a succeeding marshal; a response callback returning no error). -/
theorem C4_nil_collaborators_panic_witness :
    Client.NewRequest
      { cFix with Marshaler := some (marshal jsonEncFix yamlEncFix),
                  RequestCallback := none }
      resolveFix (.ok "node") none "GET" (.str "x") =
      .panicked "RequestCallback is nil" ∧
    Client.Do
      { cFix with limiterWait := none, keepResponseBody := false,
                  ResponseCallback := some responseCallback, Unmarshaler := none }
      (.ok ⟨200, "200 OK", some (mkNopBuf [1])⟩) .stringPtr =
      ⟨.panicked "Unmarshaler is nil", true⟩ :=
  ⟨C4_nil_collaborators_panic.2.1 cFix resolveFix "node" "GET" (.str "x")
      (marshal jsonEncFix yamlEncFix) "x" ContentTypeText rfl,
    C4_nil_collaborators_panic.2.2.2 cFix 200 "200 OK" (mkNopBuf [1]) .stringPtr
      responseCallback ⟨200, "200 OK", some (mkNopBuf [1])⟩ (by decide)⟩

/-- C5: the default response callback passes a response through
unchanged with no error exactly when the status code lies in 200..299;
any other status yields an error whose text is the response's status
line, and `Do` (with the default callback) then returns that error
together with the non-nil response object. -/
theorem C5_default_response_callback :
    (∀ r : Resp, 200 ≤ r.statusCode ∧ r.statusCode ≤ 299 → responseCallback r = (r, none)) ∧
    (∀ r : Resp, ¬(200 ≤ r.statusCode ∧ r.statusCode ≤ 299) →
      responseCallback r = (r, some (.msg r.status)) ∧ (Err.msg r.status).text = r.status) ∧
    ∀ (c : Client) (sc : Int) (st : String) (b : RC) (v : Target),
      ¬(200 ≤ sc ∧ sc ≤ 299) →
      ∃ r : Resp,
        (Client.Do
          { c with limiterWait := none, ResponseCallback := some responseCallback }
          (.ok ⟨sc, st, some b⟩) v).outcome = .returned (some r) (some (.msg st)) := by
  refine ⟨?_, ?_, ?_⟩
  · intro r h
    simp [responseCallback, h]
  · intro r h
    exact ⟨by simp [responseCallback, h], rfl⟩
  · intro c sc st b v h
    by_cases hk : c.keepResponseBody <;>
      simp [Client.Do, hk, responseCallback, h]

/-- C5 witness: a concrete 500 response dispatched through the default
pipeline. -/
theorem C5_default_response_callback_witness :
    ∃ r : Resp,
      (Client.Do
        { cFix with limiterWait := none, ResponseCallback := some responseCallback }
        (.ok ⟨500, "500 Internal Server Error", some (mkNopBuf [1])⟩) .stringPtr).outcome =
        .returned (some r) (some (.msg "500 Internal Server Error")) :=
  C5_default_response_callback.2.2 cFix 500 "500 Internal Server Error"
    (mkNopBuf [1]) .stringPtr (by decide)

/-- C6 counterexample: a payload that is neither a string nor a
`fmt.Stringer` (a plain struct value) is accepted silently by the
plain-text marshal path — `fmt.Fprint` renders any value — so no
payload-type error is produced in the marshal direction. -/
theorem C6_counterexample_marshal_accepts_any_payload :
    marshal jsonEncFix yamlEncFix (GoVal.obj "main.point") ContentTypeText =
      ("main.point", ContentTypeText, none) := by
  rfl

/-- C6 (amended): for the plain-text codec, unmarshal requires a
string-typed destination — any other target yields the returned error
"target type is not string" without reading, and a `*string` target
succeeds — while marshal imposes no requirement on the payload: every
non-nil payload is rendered by the formatting library's default
rendering with no error. -/
theorem C6_text_codec_type_handling :
    (∀ (jsonEnc yamlEnc : GoVal → Except Err String) (v : GoVal),
      v ≠ .nil →
      marshal jsonEnc yamlEnc v ContentTypeText = (fmtRender v, ContentTypeText, none)) ∧
    (∀ (jsonDec yamlDec : List Nat → Target → Option Err) (r : RC) (d : String),
      unmarshal jsonDec yamlDec r (.other d) ContentTypeText =
        (r, some (.msg "target type is not string"))) ∧
    ∀ (jsonDec yamlDec : List Nat → Target → Option Err) (rem : List Nat) (nop : Bool),
      unmarshal jsonDec yamlDec (.stream rem none none nop false) .stringPtr ContentTypeText =
        (.stream [] none none nop false, none) := by
  refine ⟨?_, ?_, ?_⟩
  · intro jsonEnc yamlEnc v hv
    cases v with
    | nil => exact absurd rfl hv
    | str s => simp [marshal, ContentTypeText, ContentTypeJSON, ContentTypeYAML, fmtRender]
    | int n => simp [marshal, ContentTypeText, ContentTypeJSON, ContentTypeYAML, fmtRender]
    | obj r => simp [marshal, ContentTypeText, ContentTypeJSON, ContentTypeYAML, fmtRender]
    | stringer s => simp [marshal, ContentTypeText, ContentTypeJSON, ContentTypeYAML, fmtRender]
  · intro jsonDec yamlDec r d
    simp [unmarshal, ContentTypeText, ContentTypeJSON, ContentTypeYAML]
  · intro jsonDec yamlDec rem nop
    simp [unmarshal, ContentTypeText, ContentTypeJSON, ContentTypeYAML, RC.readAllState]

/-- C6 witness: the amended theorem's marshal conjunct applied to a
concrete non-string payload. -/
theorem C6_text_codec_type_handling_witness :
    marshal jsonEncFix yamlEncFix (GoVal.int 7) ContentTypeText =
      (fmtRender (GoVal.int 7), ContentTypeText, none) :=
  C6_text_codec_type_handling.1 jsonEncFix yamlEncFix (GoVal.int 7) (by decide)

/-- C7: `drainBody` on the `http.NoBody` sentinel returns the very same
sentinel on both outputs with no error (and does not wrap it in a fresh
empty buffer); on any other stream whose read and close succeed it
returns two streams each yielding a byte sequence identical to the full
content of the original. -/
theorem C7_drainBody_sentinel_and_content :
    (drainBody RC.noBody = ⟨some RC.noBody, RC.noBody, none, false⟩ ∧
      RC.noBody ≠ mkNopBuf []) ∧
    ∀ (rem : List Nat) (nop : Bool),
      drainBody (.stream rem none none nop false) =
        ⟨some (mkNopBuf rem), mkNopBuf rem, none, true⟩ ∧
      (mkNopBuf rem).readAll = .ok rem ∧
      (RC.stream rem none none nop false).readAll = .ok rem := by
  refine ⟨⟨rfl, by simp [mkNopBuf]⟩, ?_⟩
  intro rem nop
  cases nop <;>
    simp [drainBody, RC.readAllState, RC.closeOp, RC.readAll, mkNopBuf]

/-- C8: on a non-sentinel stream, a read failure makes `drainBody`
abort with that error, returning the original stream unclosed; a close
failure after a successful read likewise aborts with the close error,
returning the drained-but-unclosed original. -/
theorem C8_drainBody_failure_paths :
    (∀ (rem : List Nat) (e : Err) (cerr : Option Err) (nop : Bool),
      drainBody (.stream rem (some e) cerr nop false) =
        ⟨none, .stream [] (some e) cerr nop false, some e, false⟩) ∧
    ∀ (rem : List Nat) (e : Err),
      drainBody (.stream rem none (some e) false false) =
        ⟨none, .stream [] none (some e) false false, some e, false⟩ := by
  constructor
  · intro rem e cerr nop
    simp [drainBody, RC.readAllState]
  · intro rem e
    simp [drainBody, RC.readAllState, RC.closeOp]

/-- C9: for a content-type identifier bound to no codec, `marshal` (on
a non-nil payload) and `unmarshal` (on a target that is neither nil nor
a raw byte sink) each fail with the distinct unknown-media-type error
wrapping the offending identifier, and its cause is distinguishable
from the payload-type error of the text codec. -/
theorem C9_unknown_media_type_errors :
    (∀ (jsonEnc yamlEnc : GoVal → Except Err String) (v : GoVal) (mt : String),
      v ≠ .nil → mt ≠ ContentTypeJSON → mt ≠ ContentTypeYAML → mt ≠ ContentTypeText →
      marshal jsonEnc yamlEnc v mt = ("", mt, some (.wrap ErrUnknownContentType mt))) ∧
    (∀ (jsonDec yamlDec : List Nat → Target → Option Err) (r : RC) (v : Target) (mt : String),
      v ≠ .nilT → v ≠ .writer → mt ≠ ContentTypeJSON → mt ≠ ContentTypeYAML →
      mt ≠ ContentTypeText →
      unmarshal jsonDec yamlDec r v mt = (r, some (.wrap ErrUnknownContentType mt))) ∧
    (∀ mt : String, (Err.wrap ErrUnknownContentType mt).cause = ErrUnknownContentType) ∧
    (Err.msg "target type is not string").cause ≠ ErrUnknownContentType := by
  refine ⟨?_, ?_, fun mt => rfl, by decide⟩
  · intro jsonEnc yamlEnc v mt hv hj hy ht
    cases v with
    | nil => exact absurd rfl hv
    | str s => simp [marshal, hj, hy, ht]
    | int n => simp [marshal, hj, hy, ht]
    | obj r => simp [marshal, hj, hy, ht]
    | stringer s => simp [marshal, hj, hy, ht]
  · intro jsonDec yamlDec r v mt hn hw hj hy ht
    cases v with
    | nilT => exact absurd rfl hn
    | writer => exact absurd rfl hw
    | stringPtr => simp [unmarshal, hj, hy, ht]
    | other d => simp [unmarshal, hj, hy, ht]

/-- C9 witness: both directions at the concrete unbound identifier
"application/xml". -/
theorem C9_unknown_media_type_errors_witness :
    marshal jsonEncFix yamlEncFix (GoVal.str "x") "application/xml" =
      ("", "application/xml", some (.wrap ErrUnknownContentType "application/xml")) ∧
    unmarshal jsonDecFix yamlDecFix (mkNopBuf []) .stringPtr "application/xml" =
      (mkNopBuf [], some (.wrap ErrUnknownContentType "application/xml")) :=
  ⟨C9_unknown_media_type_errors.1 jsonEncFix yamlEncFix (GoVal.str "x")
      "application/xml" (by decide) (by decide) (by decide) (by decide),
    C9_unknown_media_type_errors.2.1 jsonDecFix yamlDecFix (mkNopBuf []) .stringPtr
      "application/xml" (by decide) (by decide) (by decide) (by decide) (by decide)⟩

/-- C10: with the keep-body option, when draining the response body
fails, the drain error is discarded: the decode step is fed the
partially-consumed original stream (bytes gone, read error pending),
and the deferred re-attachment installs the `nil` saved clone, so the
caller receives a response whose body is `nil`; `Do`'s returned error
is whatever the decode step produced — in particular, with the default
unmarshaler and a `nil` target, no error at all. -/
theorem C10_keep_body_drain_failure_silent :
    ∀ (c : Client) (um : RC → Target → String → RC × Option Err)
      (st : String) (rem : List Nat) (e : Err) (cerr : Option Err) (nop : Bool)
      (v : Target) (sc : Int),
      200 ≤ sc → sc ≤ 299 →
      (drainBody (.stream rem (some e) cerr nop false)).err = some e ∧
      (Client.Do
        { c with limiterWait := none, keepResponseBody := true,
                 ResponseCallback := some responseCallback, Unmarshaler := some um }
        (.ok ⟨sc, st, some (.stream rem (some e) cerr nop false)⟩) v).outcome =
        .returned (some ⟨sc, st, none⟩)
          (um (.stream [] (some e) cerr nop false) v c.ContentType).2 ∧
      unmarshal jsonDecFix yamlDecFix (.stream [] (some e) cerr nop false) .nilT
          c.ContentType =
        (.stream [] (some e) cerr nop false, none) := by
  intro c um st rem e cerr nop v sc h200 h299
  have hd : drainBody (.stream rem (some e) cerr nop false) =
      ⟨none, .stream [] (some e) cerr nop false, some e, false⟩ := by
    simp [drainBody, RC.readAllState]
  refine ⟨by rw [hd], ?_, rfl⟩
  rcases hu : um (.stream [] (some e) cerr nop false) v c.ContentType with ⟨b2, e2⟩
  simp [Client.Do, hd, responseCallback, h200, h299, hu, finalizeResp]

/-- C10 witness: the theorem at a concrete failing stream, client and
target. -/
theorem C10_keep_body_drain_failure_silent_witness :
    (drainBody (.stream [1] (some (.msg "boom")) none false false)).err =
      some (.msg "boom") ∧
    (Client.Do
      { cFix with limiterWait := none, keepResponseBody := true,
                  ResponseCallback := some responseCallback,
                  Unmarshaler := some (unmarshal jsonDecFix yamlDecFix) }
      (.ok ⟨200, "200 OK", some (.stream [1] (some (.msg "boom")) none false false)⟩)
      .nilT).outcome =
      .returned (some ⟨200, "200 OK", none⟩)
        (unmarshal jsonDecFix yamlDecFix (.stream [] (some (.msg "boom")) none false false)
          .nilT cFix.ContentType).2 ∧
    unmarshal jsonDecFix yamlDecFix (.stream [] (some (.msg "boom")) none false false) .nilT
        cFix.ContentType =
      (.stream [] (some (.msg "boom")) none false false, none) :=
  C10_keep_body_drain_failure_silent cFix (unmarshal jsonDecFix yamlDecFix) "200 OK"
    [1] (.msg "boom") none false .nilT 200 (by decide) (by decide)
